import Mathlib

/-!
Verification of the CORD-19 metadata analysis repository
(`cord19_analysis.py` and `streamlit_app.py`).

The two entry points share the same cleaning / derivation pipeline and the
same aggregation logic; both are embedded here over an explicit table model.

Table model: a pandas `DataFrame` is modelled as a list of rows together with
one presence flag per column the scripts ever touch (`'col' in df.columns`
becomes the flag).  Cell values of the raw CSV columns are `Option String`
(`none` is pandas `NaN`); the derived columns `publication_year`,
`abstract_word_count` and `title_word_count` carry typed optional values.
`pd.to_datetime` is an external collaborator, so the cleaning pipeline is
parametrised by the date parser `String → Option Datetime`; `errors='coerce'`
is the `Option` result.
-/

namespace Cord19

/-- The result of `pd.to_datetime` on one cell; only the `.dt.year`
projection is consumed by the scripts, so only the year is modelled. -/
structure Datetime where
  year : Int
deriving Repr, DecidableEq

/-- One row of the table.  The first five fields are the raw CSV columns the
scripts read; the last three are the columns the cleaning step derives.
A value `none` models a missing entry (pandas `NaN`/`NaT`). -/
structure Row where
  title : Option String
  abstract : Option String
  authors : Option String
  journal : Option String
  publish_time : Option String
  publication_year : Option Int
  abstract_word_count : Option Nat
  title_word_count : Option Nat
deriving Repr, DecidableEq

/-- A raw row as loaded from the CSV: the derived columns do not exist yet. -/
def mkRaw (title abstract authors journal publish_time : Option String) : Row :=
  ⟨title, abstract, authors, journal, publish_time, none, none, none⟩

/-- A table: per-column presence flags (`'c' in df.columns`), the names of
any further columns the scripts never touch, and the rows. -/
structure Table where
  hasTitle : Bool
  hasAbstract : Bool
  hasAuthors : Bool
  hasJournal : Bool
  hasPublishTime : Bool
  extraCols : List String
  hasPublicationYear : Bool
  hasAbstractWC : Bool
  hasTitleWC : Bool
  rows : List Row
deriving Repr, DecidableEq

/-- Model of `df.columns`: the list of column names present in the table. -/
def Table.columns (t : Table) : List String :=
  (if t.hasTitle then ["title"] else []) ++
  (if t.hasAbstract then ["abstract"] else []) ++
  (if t.hasAuthors then ["authors"] else []) ++
  (if t.hasJournal then ["journal"] else []) ++
  (if t.hasPublishTime then ["publish_time"] else []) ++
  t.extraCols ++
  (if t.hasPublicationYear then ["publication_year"] else []) ++
  (if t.hasAbstractWC then ["abstract_word_count"] else []) ++
  (if t.hasTitleWC then ["title_word_count"] else [])

/-!  Python string operations used by the scripts, over explicit character
lists so that they evaluate inside the kernel.  -/

/-- Helper of `pySplit`: walk the characters, `acc` holding the current word
reversed. -/
def pySplitAux : List Char → List Char → List String
  | [], acc => if acc = [] then [] else [String.mk acc.reverse]
  | c :: cs, acc =>
    if c.isWhitespace then
      (if acc = [] then pySplitAux cs [] else String.mk acc.reverse :: pySplitAux cs [])
    else pySplitAux cs (c :: acc)

/-- Python `str.split()` with no argument: split on runs of whitespace,
discarding empty tokens. -/
def pySplit (s : String) : List String := pySplitAux s.toList []

/-- Python `str.lower()` (the titles in play are ASCII). -/
def lowerStr (s : String) : String := String.mk (s.toList.map Char.toLower)

/-- Python `' '.join(strs)`. -/
def joinSpace (l : List String) : String :=
  String.mk (List.intercalate [' '] (l.map String.toList))

/-- Python `str.isalpha()` (ASCII range, which covers the data in play):
nonempty and every character alphabetic. -/
def isAlphaStr (s : String) : Bool := !(s.toList.isEmpty) && s.toList.all Char.isAlpha

/-- Python `str(x)` on a cell: `NaN` prints as `"nan"` (`astype(str)`). -/
def pyStr (v : Option String) : String :=
  match v with
  | none => "nan"
  | some s => s

/-- The word-count lambda of both scripts:
`lambda x: len(str(x).split()) if pd.notna(x) else 0`. -/
def wordCount (v : Option String) : Nat :=
  match v with
  | none => 0
  | some s => (pySplit s).length

/-!  The cleaning / derivation pipeline (`prepare_data` in the app; the
Part 2 block of the batch script is line for line the same logic).  -/

/-- Step `if 'abstract' in df.columns: df['abstract'].fillna('', inplace=True)`. -/
def fillAbstract (t : Table) : Table :=
  if t.hasAbstract then
    { t with rows := t.rows.map (fun r => { r with abstract := some (r.abstract.getD "") }) }
  else t

/-- Step `if 'authors' in df.columns: df['authors'].fillna('Unknown', inplace=True)`. -/
def fillAuthors (t : Table) : Table :=
  if t.hasAuthors then
    { t with rows := t.rows.map (fun r => { r with authors := some (r.authors.getD "Unknown") }) }
  else t

/-- Step `if 'journal' in df.columns: df['journal'].fillna('Unknown', inplace=True)`. -/
def fillJournal (t : Table) : Table :=
  if t.hasJournal then
    { t with rows := t.rows.map (fun r => { r with journal := some (r.journal.getD "Unknown") }) }
  else t

/-- Step `if 'title' in df.columns: df = df[df['title'].notna()]`. -/
def dropMissingTitle (t : Table) : Table :=
  if t.hasTitle then
    { t with rows := t.rows.filter (fun r => r.title.isSome) }
  else t

/-- Step `if 'publish_time' in df.columns:` convert with `errors='coerce'` and add
`publication_year = df['publish_time'].dt.year`.  The model keeps the raw
string in the `publish_time` slot (the scripts store the parsed datetime
there, which no later step reads). -/
def addYear (parse : String → Option Datetime) (t : Table) : Table :=
  if t.hasPublishTime then
    { t with
      hasPublicationYear := true
      rows := t.rows.map (fun r =>
        { r with publication_year := (r.publish_time.bind parse).map Datetime.year }) }
  else t

/-- Step `if 'abstract' in df.columns:` add `abstract_word_count`. -/
def addAbstractWC (t : Table) : Table :=
  if t.hasAbstract then
    { t with
      hasAbstractWC := true
      rows := t.rows.map (fun r => { r with abstract_word_count := some (wordCount r.abstract) }) }
  else t

/-- Step `if 'title' in df.columns:` add `title_word_count`. -/
def addTitleWC (t : Table) : Table :=
  if t.hasTitle then
    { t with
      hasTitleWC := true
      rows := t.rows.map (fun r => { r with title_word_count := some (wordCount r.title) }) }
  else t

/-- The whole cleaning pipeline, in the order both scripts run it:
fill abstract, fill authors, fill journal, drop missing titles, parse the
date and extract the year, then add the two word-count columns. -/
def prepare_data (parse : String → Option Datetime) (t : Table) : Table :=
  addTitleWC (addAbstractWC (addYear parse (dropMissingTitle (fillJournal (fillAuthors (fillAbstract t))))))

/-- The combined effect of the three fill steps on one row (used to state
the pipeline's row-level behaviour in one place). -/
def fillRow (t : Table) (r : Row) : Row :=
  { r with
    abstract := if t.hasAbstract then some (r.abstract.getD "") else r.abstract
    authors := if t.hasAuthors then some (r.authors.getD "Unknown") else r.authors
    journal := if t.hasJournal then some (r.journal.getD "Unknown") else r.journal }

/-- The combined effect of the derivation steps on one row. -/
def deriveRow (parse : String → Option Datetime) (t : Table) (r : Row) : Row :=
  { r with
    publication_year :=
      if t.hasPublishTime then (r.publish_time.bind parse).map Datetime.year
      else r.publication_year
    abstract_word_count :=
      if t.hasAbstract then some (wordCount r.abstract) else r.abstract_word_count
    title_word_count :=
      if t.hasTitle then some (wordCount r.title) else r.title_word_count }

/-- The row predicate of the title drop step (everything passes when the
table has no title column). -/
def keepRow (t : Table) (r : Row) : Bool := !t.hasTitle || r.title.isSome

/-!  Aggregators.

`collections.Counter` keeps its entries in first-insertion order, and
`Counter.most_common` returns them sorted by count descending, ties keeping
that insertion order (it is documented as `sorted(items, key=count,
reverse=True)`, a stable sort).  `Series.value_counts` likewise counts the
non-missing values and sorts by count descending.  Both are modelled as the
first-seen-order count list followed by a stable descending sort. -/

variable {α : Type} [DecidableEq α]

/-- Add one occurrence of `w` to a count list kept in first-seen order
(`Counter` update). -/
def bump : List (α × Nat) → α → List (α × Nat)
  | [], w => [(w, 1)]
  | (x, c) :: rest, w => if x = w then (x, c + 1) :: rest else (x, c) :: bump rest w

/-- Model of `Counter(xs)`: pairs (value, multiplicity) in first-seen order. -/
def countsInOrder (xs : List α) : List (α × Nat) := xs.foldl bump []

/-- The descending-count order used by `most_common` / `value_counts`:
`a` may come before `b` when `a`'s count is at least `b`'s. -/
def countGE (a b : α × Nat) : Prop := b.2 ≤ a.2

instance : DecidableRel (@countGE α) := fun a b => Nat.decLe b.2 a.2

instance : IsTotal (α × Nat) countGE := ⟨fun a b => Nat.le_total b.2 a.2⟩

instance : IsTrans (α × Nat) countGE := ⟨fun _ _ _ h1 h2 => Nat.le_trans h2 h1⟩

/-- Model of `Series.value_counts()`: count the values and sort by count descending
(stable, so ties stay in first-seen order). -/
def value_counts (xs : List α) : List (α × Nat) :=
  List.insertionSort countGE (countsInOrder xs)

/-- Model of `Counter(xs).most_common(n)`: the `n` most frequent values, count
descending, ties in first-insertion order. -/
def most_common (n : Nat) (xs : List α) : List (α × Nat) :=
  (List.insertionSort countGE (countsInOrder xs)).take n

/-- Ascending order on the index of a year→count list (`sort_index()`). -/
def keyLE (a b : Int × Nat) : Prop := a.1 ≤ b.1

instance : DecidableRel keyLE := fun a b => Int.decLe a.1 b.1

instance : IsTotal (Int × Nat) keyLE := ⟨fun a b => Int.le_total a.1 b.1⟩

instance : IsTrans (Int × Nat) keyLE := ⟨fun _ _ _ h1 h2 => Int.le_trans h1 h2⟩

/-- Model of `df['publication_year'].value_counts().sort_index()` — counts of the
non-missing years, reordered ascending by year. -/
def papers_by_year (t : Table) : List (Int × Nat) :=
  List.insertionSort keyLE (value_counts (t.rows.filterMap Row.publication_year))

/-- Model of `df['journal'].value_counts().head(n)` — top `n` journals by count. -/
def top_journals (t : Table) (n : Nat) : List (String × Nat) :=
  (value_counts (t.rows.filterMap Row.journal)).take n

/-- The hard-coded stop-word set of both scripts. -/
def stop_words : List String :=
  ["the", "a", "an", "and", "or", "but", "in", "on", "at", "to", "for",
   "of", "with", "by", "from", "as", "is", "was", "are", "be", "been",
   "covid", "19", "coronavirus", "sars", "cov", "covid-19", "novel",
   "new", "study", "research", "analysis", "case", "effect", "related"]

/-- The token filter of the list comprehension:
`word.isalpha() and len(word) > 3 and word not in stop_words`. -/
def keepWord (w : String) : Bool :=
  isAlphaStr w && decide (3 < w.length) && !(stop_words.contains w)

/-- The filtered token list of the word analysis:
`' '.join(df['title'].astype(str)).lower().split()` then the comprehension
filter. -/
def titleTokens (t : Table) : List String :=
  (pySplit (lowerStr (joinSpace (t.rows.map (fun r => pyStr r.title))))).filter keepWord

/-- Model of `Counter(words).most_common(n)` of the word-analysis block. -/
def top_words (t : Table) (n : Nat) : List (String × Nat) :=
  most_common n (titleTokens t)

/-- Model of `df['abstract_word_count'].mean()` (sidebar statistic): the mean of the
non-missing entries, `none` when there are none (pandas `NaN`). -/
def avg_abstract_words (t : Table) : Option ℚ :=
  let xs := t.rows.filterMap Row.abstract_word_count
  if xs.isEmpty then none
  else some ((xs.map (fun n => (n : ℚ))).sum / xs.length)

/-- The row predicate of the year-range filter
`(df['publication_year'] >= lo) & (df['publication_year'] <= hi)`:
pandas comparisons on `NaN` yield `False`, so a row with a missing
`publication_year` is never selected. -/
def inYearRange (lo hi : Int) (r : Row) : Bool :=
  match r.publication_year with
  | some y => decide (lo ≤ y) && decide (y ≤ hi)
  | none => false

/-- Step `df_filtered = df_cleaned[(py >= lo) & (py <= hi)]`. -/
def filterYearRange (t : Table) (lo hi : Int) : Table :=
  { t with rows := t.rows.filter (inYearRange lo hi) }

/-!  The download round trip of the data tab.

`df_filtered[display_cols].to_csv(index=False)` writes a header record and
one record per row; `load_data` reads it back with `pd.read_csv`.  The CSV
string serialisation itself is the tabular library's concern (explicitly out
of scope in this design), so the interchange format is modelled one level
up: a list of records, the first being the header.  A missing cell is
written as the empty field, and an empty field reads back as missing: this
matches pandas and already shows the trip is value-lossy, but the claims
about it only concern row count and column set. -/

/-- Every column name either script ever creates or reads. -/
def knownCols : List String :=
  ["title", "abstract", "authors", "journal", "publish_time",
   "publication_year", "abstract_word_count", "title_word_count"]

/-- The list `available_cols` filtered to the columns present
(`[col for col in available_cols if col in df_filtered.columns]`). -/
def display_cols (t : Table) : List String :=
  ["title", "abstract", "authors", "journal", "publication_year",
   "abstract_word_count"].filter (fun c => t.columns.contains c)

/-- Render one cell of a string column (`NaN` prints as an empty field). -/
def strCell (v : Option String) : String := v.getD ""

/-- Render one cell of the year column. -/
def intCell : Option Int → String
  | none => ""
  | some y => toString y

/-- Render one cell of a word-count column. -/
def natCell : Option Nat → String
  | none => ""
  | some n => toString n

/-- The cell of row `r` at column `c`, as written to the CSV. -/
def cellOf (r : Row) (c : String) : String :=
  if c = "title" then strCell r.title
  else if c = "abstract" then strCell r.abstract
  else if c = "authors" then strCell r.authors
  else if c = "journal" then strCell r.journal
  else if c = "publish_time" then strCell r.publish_time
  else if c = "publication_year" then intCell r.publication_year
  else if c = "abstract_word_count" then natCell r.abstract_word_count
  else if c = "title_word_count" then natCell r.title_word_count
  else ""

/-- Model of `df_filtered[display_cols].to_csv(index=False)`: header record then one
record per row, restricted to the display columns. -/
def to_csv (t : Table) : List (List String) :=
  display_cols t :: t.rows.map (fun r => (display_cols t).map (cellOf r))

/-- The cell of a parsed record at column `c`: position given by the header,
an empty field reading back as missing. -/
def cellVal (header rec : List String) (c : String) : Option String :=
  match List.findIdx? (fun x => x = c) header with
  | none => none
  | some i =>
    match rec.get? i with
    | none => none
    | some s => if s = "" then none else some s

/-- One parsed row of a reloaded CSV. -/
def rowOfRecord (header rec : List String) : Row :=
  { title := cellVal header rec "title"
    abstract := cellVal header rec "abstract"
    authors := cellVal header rec "authors"
    journal := cellVal header rec "journal"
    publish_time := cellVal header rec "publish_time"
    publication_year := (cellVal header rec "publication_year").bind String.toInt?
    abstract_word_count := (cellVal header rec "abstract_word_count").bind String.toNat?
    title_word_count := (cellVal header rec "title_word_count").bind String.toNat? }

/-- The table a list of records parses to, given its header. -/
def tableOfRecords (header : List String) (body : List (List String)) : Table :=
  { hasTitle := header.contains "title"
    hasAbstract := header.contains "abstract"
    hasAuthors := header.contains "authors"
    hasJournal := header.contains "journal"
    hasPublishTime := header.contains "publish_time"
    extraCols := header.filter (fun c => !(knownCols.contains c))
    hasPublicationYear := header.contains "publication_year"
    hasAbstractWC := header.contains "abstract_word_count"
    hasTitleWC := header.contains "title_word_count"
    rows := body.map (fun rec => rowOfRecord header rec) }

/-- Model of `pd.read_csv` at the record level: the first record is the header, the
rest are the rows; fails (`EmptyDataError`) on no records at all. -/
def read_csv (recs : List (List String)) : Option Table :=
  match recs with
  | [] => none
  | header :: body => some (tableOfRecords header body)

/-!  A store model for the mutation claim.

The scripts build the cleaned table by `df_cleaned = df.copy()` followed by
in-place updates (`fillna(..., inplace=True)`, column assignments) and one
rebinding (`df_cleaned = df_cleaned[df_cleaned['title'].notna()]`).  To make
"cleaning never mutates the raw table" a real statement, the script
variables are modelled as references into a heap of tables, so an in-place
update is visible as heap mutation — had the script aliased instead of
copied, the theorem below would fail. -/

/-- The table a dangling reference reads (never reached in the runs below). -/
def emptyTable : Table := ⟨false, false, false, false, false, [], false, false, false, []⟩

/-- The interpreter state: the heap of live tables and the references the
variables `df` and `df_cleaned` hold. -/
structure PdState where
  heap : List Table
  df : Nat
  df_cleaned : Nat
deriving Repr, DecidableEq

/-- Step `df_cleaned = df.copy()`: allocate a fresh table equal to `df`'s. -/
def copyCleaned (s : PdState) : PdState :=
  ⟨s.heap ++ [s.heap.getD s.df emptyTable], s.df, s.heap.length⟩

/-- An in-place update of the table `df_cleaned` refers to
(`fillna(..., inplace=True)`, or assigning a new column). -/
def applyInPlace (f : Table → Table) (s : PdState) : PdState :=
  ⟨s.heap.set s.df_cleaned (f (s.heap.getD s.df_cleaned emptyTable)), s.df, s.df_cleaned⟩

/-- Step `df_cleaned = df_cleaned[mask]`: boolean-mask selection builds a new
table and rebinds the variable. -/
def reassignCleaned (f : Table → Table) (s : PdState) : PdState :=
  ⟨s.heap ++ [f (s.heap.getD s.df_cleaned emptyTable)], s.df, s.heap.length⟩

/-- The cleaning section of either script, step for step, run on a heap
holding just the raw table. -/
def runCleaningScript (parse : String → Option Datetime) (t : Table) : PdState :=
  applyInPlace addTitleWC
    (applyInPlace addAbstractWC
      (applyInPlace (addYear parse)
        (reassignCleaned dropMissingTitle
          (applyInPlace fillJournal
            (applyInPlace fillAuthors
              (applyInPlace fillAbstract
                (copyCleaned ⟨[t], 0, 0⟩)))))))

/-!  Concrete fixtures used to instantiate the theorems. -/

/-- A concrete date parser standing in for `pd.to_datetime`: two known date
strings parse, everything else coerces to missing. -/
def parseDemo : String → Option Datetime := fun s =>
  if s = "2020-01-01" then some ⟨2020⟩
  else if s = "2021-05-07" then some ⟨2021⟩ else none

/-- A raw table with all five raw columns; the third row has a missing
title, the second an unparseable date. -/
def tFull : Table :=
  ⟨true, true, true, true, true, [], false, false, false,
   [mkRaw (some "Novel Coronavirus Spread Patterns") none none none (some "2020-01-01"),
    mkRaw (some "Spread Dynamics Of Coronavirus") (some "an abstract text") (some "Smith, J.")
      (some "Nature") (some "bad-date"),
    mkRaw none (some "x") (some "y") (some "z") (some "2021-05-07")]⟩

/-- A raw table with no title column. -/
def tNoTitle : Table :=
  ⟨false, true, true, true, true, [], false, false, false,
   [mkRaw none none none none (some "2020-01-01"),
    mkRaw none (some "a") (some "b") (some "c") none]⟩

/-- A cleaned-shape table whose titles are exactly the two of the spec's
`top_words` test. -/
def tTitles : Table :=
  ⟨true, false, false, false, false, [], false, false, false,
   [mkRaw (some "Novel Coronavirus Spread Patterns") none none none none,
    mkRaw (some "Spread Dynamics Of Coronavirus") none none none none]⟩

/-- A row carrying only a publication year. -/
def mkYearRow (y : Option Int) : Row := ⟨none, none, none, none, none, y, none, none⟩

/-- A cleaned-shape table whose publication years are `[2020, 2020, 2021]`. -/
def tYears : Table :=
  ⟨false, false, false, false, false, [], true, false, false,
   [mkYearRow (some 2020), mkYearRow (some 2020), mkYearRow (some 2021)]⟩

/-!  Correctness of the counting machinery. -/

theorem bump_nil (t : α) : bump ([] : List (α × Nat)) t = [(t, 1)] := rfl

theorem bump_cons_eq (x : α) (c : Nat) (tl : List (α × Nat)) :
    bump ((x, c) :: tl) x = (x, c + 1) :: tl := by
  simp [bump]

theorem bump_cons_ne {x t : α} (h : ¬ x = t) (c : Nat) (tl : List (α × Nat)) :
    bump ((x, c) :: tl) t = (x, c) :: bump tl t := by
  simp [bump, h]

/-- The keys of `bump acc t`: unchanged when `t` is already a key, otherwise
`t` is appended. -/
theorem keys_bump (t : α) :
    ∀ acc : List (α × Nat),
      (bump acc t).map Prod.fst =
        if t ∈ acc.map Prod.fst then acc.map Prod.fst else acc.map Prod.fst ++ [t] := by
  intro acc
  induction acc with
  | nil => simp [bump]
  | cons hd tl ih =>
    obtain ⟨x, c⟩ := hd
    by_cases hx : x = t
    · subst hx
      rw [bump_cons_eq]
      simp
    · have hne : ¬ t = x := fun h => hx h.symm
      rw [bump_cons_ne hx]
      simp only [List.map_cons, List.mem_cons, ih]
      by_cases hmem : t ∈ tl.map Prod.fst <;> simp [hmem, hne]

/-- The update `bump` keeps the keys without duplicates. -/
theorem nodup_keys_bump (t : α) (acc : List (α × Nat))
    (h : (acc.map Prod.fst).Nodup) : ((bump acc t).map Prod.fst).Nodup := by
  rw [keys_bump]
  by_cases hmem : t ∈ acc.map Prod.fst
  · simpa [hmem] using h
  · simpa [hmem] using List.Nodup.append h (by simp) (by simpa using fun h2 => hmem h2)

/-- The update `bump` adds exactly one occurrence of `t` to the counts. -/
theorem count_bump (seen : List α) (t : α) :
    ∀ acc : List (α × Nat),
      (acc.map Prod.fst).Nodup →
      (∀ wc ∈ acc, wc.2 = seen.count wc.1) →
      (t ∉ acc.map Prod.fst → seen.count t = 0) →
      ∀ wc ∈ bump acc t, wc.2 = (seen ++ [t]).count wc.1 := by
  intro acc
  induction acc with
  | nil =>
    intro _ _ ht wc hm
    rw [bump_nil] at hm
    rcases List.mem_singleton.mp hm with rfl
    simp [List.count_append, ht (by simp)]
  | cons hd tl ih =>
    obtain ⟨x, c⟩ := hd
    intro hnd hcnt ht wc hm
    have hnd2 : x ∉ tl.map Prod.fst ∧ (tl.map Prod.fst).Nodup := by
      simpa [List.nodup_cons] using hnd
    by_cases hx : x = t
    · subst hx
      rw [bump_cons_eq] at hm
      rcases List.mem_cons.mp hm with h1 | h2
      · subst h1
        have hc := hcnt (x, c) (by simp)
        simp only at hc
        simp [List.count_append, hc]
      · have hkey : wc.1 ≠ x := by
          intro heq
          exact hnd2.1 (heq ▸ List.mem_map_of_mem Prod.fst h2)
        have hc := hcnt wc (List.mem_cons_of_mem _ h2)
        simp [List.count_append, hc, List.count_singleton, hkey]
    · rw [bump_cons_ne hx] at hm
      rcases List.mem_cons.mp hm with h1 | h2
      · subst h1
        have hc := hcnt (x, c) (by simp)
        simp only at hc
        have hne : ¬ x = t := hx
        simp [List.count_append, hc, List.count_singleton, hne]
      · refine ih hnd2.2 (fun wc2 h => hcnt wc2 (List.mem_cons_of_mem _ h))
          (fun hnot => ht ?_) wc h2
        simp only [List.map_cons, List.mem_cons]
        rintro (h | h)
        · exact hx h.symm
        · exact hnot h

/-- The update `bump` never produces a zero count. -/
theorem pos_bump (t : α) :
    ∀ acc : List (α × Nat), (∀ wc ∈ acc, 0 < wc.2) → ∀ wc ∈ bump acc t, 0 < wc.2 := by
  intro acc
  induction acc with
  | nil =>
    intro _ wc hm
    rw [bump_nil] at hm
    rcases List.mem_singleton.mp hm with rfl
    simp
  | cons hd tl ih =>
    obtain ⟨x, c⟩ := hd
    intro hpos wc hm
    by_cases hx : x = t
    · subst hx
      rw [bump_cons_eq] at hm
      rcases List.mem_cons.mp hm with h1 | h2
      · subst h1; simp
      · exact hpos wc (List.mem_cons_of_mem _ h2)
    · rw [bump_cons_ne hx] at hm
      rcases List.mem_cons.mp hm with h1 | h2
      · subst h1; exact hpos (x, c) (by simp)
      · exact ih (fun wc2 h => hpos wc2 (List.mem_cons_of_mem _ h)) wc h2

/-- Invariant of the `Counter` fold: after processing `seen ++ ts` the keys
are duplicate-free, every entry carries the exact multiplicity, entries are
positive, and absent keys have multiplicity zero. -/
theorem foldl_bump_invariant :
    ∀ (ts seen : List α) (acc : List (α × Nat)),
      (acc.map Prod.fst).Nodup →
      (∀ wc ∈ acc, wc.2 = seen.count wc.1 ∧ 0 < wc.2) →
      (∀ w, w ∉ acc.map Prod.fst → seen.count w = 0) →
      ((ts.foldl bump acc).map Prod.fst).Nodup ∧
      (∀ wc ∈ ts.foldl bump acc, wc.2 = (seen ++ ts).count wc.1 ∧ 0 < wc.2) ∧
      (∀ w, w ∉ (ts.foldl bump acc).map Prod.fst → (seen ++ ts).count w = 0) := by
  intro ts
  induction ts with
  | nil =>
    intro seen acc hnd hcnt habs
    simp only [List.foldl_nil, List.append_nil]
    exact ⟨hnd, hcnt, habs⟩
  | cons t ts ih =>
    intro seen acc hnd hcnt habs
    have step := ih (seen ++ [t]) (bump acc t)
      (nodup_keys_bump t acc hnd)
      (fun wc hm => ⟨count_bump seen t acc hnd (fun wc2 h => (hcnt wc2 h).1)
          (habs t) wc hm,
        pos_bump t acc (fun wc2 h => (hcnt wc2 h).2) wc hm⟩)
      (fun w hw => by
        have hwacc : w ∉ acc.map Prod.fst ∧ w ≠ t := by
          rw [keys_bump] at hw
          by_cases hmem : t ∈ acc.map Prod.fst
          · simp only [if_pos hmem] at hw
            exact ⟨hw, fun h => hw (h ▸ hmem)⟩
          · simp only [if_neg hmem, List.mem_append, List.mem_singleton] at hw
            push_neg at hw
            exact hw
        have h0 := habs w hwacc.1
        simp [List.count_append, h0, List.count_singleton, hwacc.2])
    simpa [List.append_assoc] using step

/-- The count list `Counter(xs)` is exact: duplicate-free keys, every entry's count is the
multiplicity in `xs`, entries are positive, and absent keys do not occur. -/
theorem countsInOrder_spec (xs : List α) :
    ((countsInOrder xs).map Prod.fst).Nodup ∧
    (∀ wc ∈ countsInOrder xs, wc.2 = xs.count wc.1 ∧ 0 < wc.2) ∧
    (∀ w, w ∉ (countsInOrder xs).map Prod.fst → xs.count w = 0) := by
  have h := foldl_bump_invariant xs [] [] (by simp) (by simp) (by simp)
  simpa [countsInOrder] using h

theorem value_counts_perm (xs : List α) : (value_counts xs).Perm (countsInOrder xs) :=
  List.perm_insertionSort _ _

/-- Every entry of `value_counts` carries the exact multiplicity. -/
theorem mem_value_counts {xs : List α} {wc : α × Nat} (h : wc ∈ value_counts xs) :
    wc.2 = xs.count wc.1 ∧ 0 < wc.2 :=
  (countsInOrder_spec xs).2.1 wc ((value_counts_perm xs).mem_iff.mp h)

/-- The list `value_counts` is sorted by count descending. -/
theorem value_counts_sorted (xs : List α) : List.Sorted countGE (value_counts xs) :=
  List.sorted_insertionSort countGE _

/-- A value appears as a key of `value_counts` exactly when it occurs in the
data. -/
theorem keys_value_counts {xs : List α} {w : α} :
    (∃ c, (w, c) ∈ value_counts xs) ↔ w ∈ xs := by
  constructor
  · rintro ⟨c, hc⟩
    obtain ⟨h1, h2⟩ := mem_value_counts hc
    rw [h1] at h2
    exact List.count_pos_iff.mp h2
  · intro hw
    by_cases hk : w ∈ (countsInOrder xs).map Prod.fst
    · rcases List.mem_map.mp hk with ⟨wc, hwc, hfst⟩
      exact ⟨wc.2, by
        have : wc = (w, wc.2) := by
          rcases wc with ⟨a, b⟩
          simp only at hfst
          simp [hfst]
        exact this ▸ (value_counts_perm xs).mem_iff.mpr hwc⟩
    · have h0 := (countsInOrder_spec xs).2.2 w hk
      have := List.count_pos_iff.mpr hw
      omega

/-!  Row-level characterisation of the cleaning pipeline. -/

/-- The rows of the cleaned table are exactly the raw rows, filled, with the
title-missing ones dropped (when a title column exists), and the derived
columns added. -/
theorem prepare_data_rows (p : String → Option Datetime) (t : Table) :
    (prepare_data p t).rows =
      ((t.rows.map (fun r => fillRow t r)).filter (fun r => keepRow t r)).map
        (fun r => deriveRow p t r) := by
  rcases t with ⟨hT, hA, hU, hJ, hP, ec, hPY, hAW, hTW, rows⟩
  cases hT <;> cases hA <;> cases hU <;> cases hJ <;> cases hP <;>
    simp [prepare_data, fillAbstract, fillAuthors, fillJournal, dropMissingTitle,
      addYear, addAbstractWC, addTitleWC, fillRow, deriveRow, keepRow,
      List.map_map, Function.comp_def]

/-- The cleaning pipeline only changes rows, never removes a column. -/
theorem prepare_data_flags (p : String → Option Datetime) (t : Table) :
    (prepare_data p t).hasTitle = t.hasTitle ∧
    (prepare_data p t).hasAbstract = t.hasAbstract ∧
    (prepare_data p t).hasAuthors = t.hasAuthors ∧
    (prepare_data p t).hasJournal = t.hasJournal ∧
    (prepare_data p t).hasPublishTime = t.hasPublishTime ∧
    (prepare_data p t).extraCols = t.extraCols ∧
    (prepare_data p t).hasPublicationYear = (t.hasPublishTime || t.hasPublicationYear) ∧
    (prepare_data p t).hasAbstractWC = (t.hasAbstract || t.hasAbstractWC) ∧
    (prepare_data p t).hasTitleWC = (t.hasTitle || t.hasTitleWC) := by
  rcases t with ⟨hT, hA, hU, hJ, hP, ec, hPY, hAW, hTW, rows⟩
  cases hT <;> cases hA <;> cases hU <;> cases hJ <;> cases hP <;>
    simp [prepare_data, fillAbstract, fillAuthors, fillJournal, dropMissingTitle,
      addYear, addAbstractWC, addTitleWC]

/-!  Claim theorems. -/

/-- C1: For every raw table containing the columns abstract, authors and
journal, every row of the cleaned table has non-missing values in those
three columns, obtained from a raw row by replacing a missing abstract with
`""`, missing authors with `"Unknown"`, a missing journal with `"Unknown"`,
and leaving non-missing values unchanged (`Option.getD` returns the present
value untouched). -/
theorem claim_C1_fill_defaults (p : String → Option Datetime) (t : Table)
    (hA : t.hasAbstract = true) (hU : t.hasAuthors = true) (hJ : t.hasJournal = true) :
    ∀ r2 ∈ (prepare_data p t).rows,
      r2.abstract.isSome = true ∧ r2.authors.isSome = true ∧ r2.journal.isSome = true ∧
      ∃ r ∈ t.rows,
        r2.abstract = some (r.abstract.getD "") ∧
        r2.authors = some (r.authors.getD "Unknown") ∧
        r2.journal = some (r.journal.getD "Unknown") := by
  intro r2 hm
  rw [prepare_data_rows] at hm
  rcases List.mem_map.mp hm with ⟨r1, hr1, rfl⟩
  rcases List.mem_filter.mp hr1 with ⟨hr1m, _⟩
  rcases List.mem_map.mp hr1m with ⟨r0, hr0, rfl⟩
  refine ⟨?_, ?_, ?_, r0, hr0, ?_, ?_, ?_⟩ <;>
    simp [deriveRow, fillRow, hA, hU, hJ]

/-- Witness for C1: on the concrete table `tFull` (which has missing
abstract/authors/journal cells) every cleaned row has all three columns
filled. -/
theorem claim_C1_fill_defaults_witness :
    ((prepare_data parseDemo tFull).rows.all
      (fun r2 => r2.abstract.isSome && r2.authors.isSome && r2.journal.isSome)) = true := by
  rw [List.all_eq_true]
  intro r2 hm
  have h := claim_C1_fill_defaults parseDemo tFull rfl rfl rfl r2 hm
  simp [h.1, h.2.1, h.2.2.1]

/-- C2: When the raw table has a title column, cleaning keeps exactly the
rows whose title is non-missing (same count as filtering the raw rows on a
present title, and every surviving row has one); when there is no title
column, the row count is unchanged — the drop step is skipped and, the
pipeline being a total function, nothing is raised. -/
theorem claim_C2_title_drop (p : String → Option Datetime) (t : Table) :
    (t.hasTitle = true →
      (prepare_data p t).rows.length = (t.rows.filter (fun r => r.title.isSome)).length ∧
      ∀ r2 ∈ (prepare_data p t).rows, r2.title.isSome = true) ∧
    (t.hasTitle = false → (prepare_data p t).rows.length = t.rows.length) := by
  constructor
  · intro hT
    constructor
    · rw [prepare_data_rows]
      rw [List.length_map, ← List.countP_eq_length_filter, List.countP_map]
      rw [← List.countP_eq_length_filter]
      congr 1
      funext r
      simp [Function.comp_def, keepRow, fillRow, hT]
    · intro r2 hm
      rw [prepare_data_rows] at hm
      rcases List.mem_map.mp hm with ⟨r1, hr1, rfl⟩
      rcases List.mem_filter.mp hr1 with ⟨hr1m, hkeep⟩
      rcases List.mem_map.mp hr1m with ⟨r0, hr0, rfl⟩
      simp only [keepRow, hT, Bool.not_true, Bool.false_or] at hkeep
      simpa [deriveRow, fillRow] using hkeep
  · intro hT
    rw [prepare_data_rows]
    rw [List.length_map]
    have : ∀ r ∈ t.rows.map (fun r => fillRow t r), keepRow t r = true := by
      intro r _
      simp [keepRow, hT]
    rw [List.filter_eq_self.mpr this, List.length_map]

/-- Witness for C2: on `tFull` (title column present, one row with a
missing title) cleaning keeps 2 of the 3 rows; on `tNoTitle` (no title
column) both rows survive. -/
theorem claim_C2_title_drop_witness :
    (prepare_data parseDemo tFull).rows.length =
      (tFull.rows.filter (fun r => r.title.isSome)).length ∧
    (prepare_data parseDemo tNoTitle).rows.length = tNoTitle.rows.length := by
  exact ⟨(claim_C2_title_drop parseDemo tFull).1 rfl |>.1,
    (claim_C2_title_drop parseDemo tNoTitle).2 rfl⟩

/-- Tokens produced by `pySplitAux` are never empty: a token is only ever
emitted from a nonempty accumulator. -/
theorem pySplitAux_ne_nil :
    ∀ (cs acc : List Char), ∀ w ∈ pySplitAux cs acc, w ≠ "" := by
  intro cs
  induction cs with
  | nil =>
    intro acc w hw
    by_cases hacc : acc = []
    · simp [pySplitAux, hacc] at hw
    · simp only [pySplitAux, if_neg hacc, List.mem_singleton] at hw
      subst hw
      intro h
      have : acc.reverse = [] := by
        have := congrArg String.toList h
        simpa using this
      exact hacc (by simpa using this)
  | cons c cs ih =>
    intro acc w hw
    by_cases hws : c.isWhitespace
    · by_cases hacc : acc = []
      · simp only [pySplitAux, if_pos hws, if_pos hacc] at hw
        exact ih [] w hw
      · simp only [pySplitAux, if_pos hws, if_neg hacc, List.mem_cons] at hw
        rcases hw with rfl | hw
        · intro h
          have : acc.reverse = [] := by
            have := congrArg String.toList h
            simpa using this
          exact hacc (by simpa using this)
        · exact ih [] w hw
    · simp only [pySplitAux, if_neg hws] at hw
      exact ih (c :: acc) w hw

/-- C5: For every date parser and every raw table with a publish_time
column, the cleaned table has a publication_year column, and each cleaned
row's entry is the parsed year of the originating raw row's publish_time —
present exactly when the value parses, missing when it does not (or was
itself missing).  The pipeline is a total function of the parser and the
table, so no publish_time value can make it fail. -/
theorem claim_C5_year_parse (p : String → Option Datetime) (t : Table)
    (hP : t.hasPublishTime = true) :
    (prepare_data p t).hasPublicationYear = true ∧
    ∀ r2 ∈ (prepare_data p t).rows, ∃ r ∈ t.rows,
      r2.publish_time = r.publish_time ∧
      r2.publication_year = (r.publish_time.bind p).map Datetime.year := by
  constructor
  · rw [(prepare_data_flags p t).2.2.2.2.2.2.1, hP]
    rfl
  · intro r2 hm
    rw [prepare_data_rows] at hm
    rcases List.mem_map.mp hm with ⟨r1, hr1, rfl⟩
    rcases List.mem_filter.mp hr1 with ⟨hr1m, _⟩
    rcases List.mem_map.mp hr1m with ⟨r0, hr0, rfl⟩
    exact ⟨r0, hr0, by simp [deriveRow, fillRow, hP]⟩

/-- Witness for C5: on `tFull`, the cleaned rows carry year 2020 for the
parseable date and a missing year for `"bad-date"`. -/
theorem claim_C5_year_parse_witness :
    (prepare_data parseDemo tFull).hasPublicationYear = true ∧
    ((prepare_data parseDemo tFull).rows.map Row.publication_year = [some 2020, none]) := by
  refine ⟨(claim_C5_year_parse parseDemo tFull rfl).1, by decide⟩

/-- C6: The word-count columns: a missing text value counts 0 words, the
empty string counts 0 words, `"a b  c"` counts 3 (runs of whitespace
collapse — no token of a split is ever empty), and in the cleaned table the
derived columns hold exactly the word count of the row's text value. -/
theorem claim_C6_word_counts (p : String → Option Datetime) (t : Table) :
    wordCount none = 0 ∧ wordCount (some "") = 0 ∧ wordCount (some "a b  c") = 3 ∧
    (∀ s, ∀ w ∈ pySplit s, w ≠ "") ∧
    (t.hasAbstract = true → ∀ r2 ∈ (prepare_data p t).rows,
      r2.abstract_word_count = some (wordCount r2.abstract)) ∧
    (t.hasTitle = true → ∀ r2 ∈ (prepare_data p t).rows,
      r2.title_word_count = some (wordCount r2.title)) := by
  refine ⟨rfl, rfl, by decide, fun s => pySplitAux_ne_nil s.toList [], ?_, ?_⟩
  · intro hA r2 hm
    rw [prepare_data_rows] at hm
    rcases List.mem_map.mp hm with ⟨r1, hr1, rfl⟩
    simp [deriveRow, hA]
  · intro hT r2 hm
    rw [prepare_data_rows] at hm
    rcases List.mem_map.mp hm with ⟨r1, hr1, rfl⟩
    simp [deriveRow, hT]

/-- Witness for C6: the cleaned `tFull` has abstract word counts 0 (filled
empty abstract) and 3, both equal to the recomputed word count. -/
theorem claim_C6_word_counts_witness :
    (prepare_data parseDemo tFull).rows.all
      (fun r2 => r2.abstract_word_count == some (wordCount r2.abstract)) = true := by
  rw [List.all_eq_true]
  intro r2 hm
  have h := (claim_C6_word_counts parseDemo tFull).2.2.2.2.1 rfl r2 hm
  simp [h]

/-- C9: Cleaning never mutates the raw table.  In the store model — where
the scripts' in-place `fillna` calls and column assignments are heap
mutations, and `df.copy()` allocates — the heap cell the variable `df`
points at still holds the untouched raw table after the whole cleaning
section has run, and `df_cleaned` points at the functional cleaning
result. -/
theorem claim_C9_no_mutation (p : String → Option Datetime) (t : Table) :
    (runCleaningScript p t).heap.getD (runCleaningScript p t).df emptyTable = t ∧
    (runCleaningScript p t).heap.getD (runCleaningScript p t).df_cleaned emptyTable =
      prepare_data p t := by
  exact ⟨rfl, rfl⟩

/-- C10: The year-range filter keeps exactly the rows whose
publication_year is present and lies in `[lo, hi]` inclusive; a row whose
publish_time failed to parse (missing year) is excluded from every
year-filtered view, because pandas `NaN` comparisons are `False`. -/
theorem claim_C10_year_filter (t : Table) (lo hi : Int) (r : Row) :
    r ∈ (filterYearRange t lo hi).rows ↔
      (r ∈ t.rows ∧ ∃ y, r.publication_year = some y ∧ lo ≤ y ∧ y ≤ hi) := by
  constructor
  · intro h
    rcases List.mem_filter.mp h with ⟨hm, hf⟩
    refine ⟨hm, ?_⟩
    unfold inYearRange at hf
    cases hpy : r.publication_year with
    | none => rw [hpy] at hf; simp at hf
    | some y =>
      rw [hpy] at hf
      simp only [Bool.and_eq_true, decide_eq_true_eq] at hf
      exact ⟨y, rfl, hf.1, hf.2⟩
  · rintro ⟨hm, y, hy, h1, h2⟩
    refine List.mem_filter.mpr ⟨hm, ?_⟩
    unfold inYearRange
    rw [hy]
    simp [h1, h2]

/-- C3: `top_words` returns (word, count) pairs drawn from the lower-cased
whitespace tokens of the concatenated titles, keeping only purely alphabetic
tokens of length greater than 3 that are not stop words; counts are the
exact multiplicities, the output is ordered by count descending with at most
`n` entries, ties keep first-occurrence order (stability of the sort over
the first-seen count list), and on the spec's two concrete titles it returns
spread: 2, patterns: 1, dynamics: 1 (excluding the stop words "novel" and
"coronavirus"). -/
theorem claim_C3_top_words :
    top_words tTitles 20 = [("spread", 2), ("patterns", 1), ("dynamics", 1)] ∧
    (∀ t n, List.Sorted countGE (top_words t n) ∧ (top_words t n).length ≤ n) ∧
    (∀ t n wc, wc ∈ top_words t n →
      wc.2 = (titleTokens t).count wc.1 ∧ 0 < wc.2 ∧ wc.1 ∈ titleTokens t ∧
      isAlphaStr wc.1 = true ∧ 3 < wc.1.length ∧ stop_words.contains wc.1 = false) ∧
    (∀ t a b, [a, b].Sublist (countsInOrder (titleTokens t)) → a.2 = b.2 →
      [a, b].Sublist (List.insertionSort countGE (countsInOrder (titleTokens t)))) := by
  refine ⟨by decide, ?_, ?_, ?_⟩
  · intro t n
    constructor
    · exact List.Pairwise.sublist (List.take_sublist n _)
        (List.sorted_insertionSort countGE (countsInOrder (titleTokens t)))
    · exact List.length_take_le n _
  · intro t n wc hm
    have hm2 : wc ∈ value_counts (titleTokens t) := List.mem_of_mem_take hm
    obtain ⟨hcount, hpos⟩ := mem_value_counts hm2
    have hmem : wc.1 ∈ titleTokens t := List.count_pos_iff.mp (hcount ▸ hpos)
    have hkeep : keepWord wc.1 = true := by
      have := hmem
      simp only [titleTokens] at this
      exact (List.mem_filter.mp this).2
    simp only [keepWord, Bool.and_eq_true, decide_eq_true_eq, Bool.not_eq_eq_eq_not,
      Bool.not_true] at hkeep
    exact ⟨hcount, hpos, hmem, hkeep.1.1, hkeep.1.2, hkeep.2⟩
  · intro t a b hsub heq
    refine List.pair_sublist_insertionSort ?_ hsub
    show b.2 ≤ a.2
    omega

/-- Witness for C3: the entry `("spread", 2)` of the concrete result
carries the exact multiplicity of "spread" among the filtered title
tokens. -/
theorem claim_C3_top_words_witness :
    ("spread", 2).2 = (titleTokens tTitles).count ("spread", 2).1 := by
  exact (claim_C3_top_words.2.2.1 tTitles 20 ("spread", 2) (by decide)).1

/-- C4: counting by publication year returns a year→count list sorted
ascending by year (on years [2020, 2020, 2021] it is exactly
[(2020, 2), (2021, 1)]) whose entries carry exact multiplicities and whose
keys are exactly the years occurring; counting for ranking (journals)
returns counts sorted by count descending, truncated to the top `n`, again
with exact multiplicities. -/
theorem claim_C4_count_by :
    papers_by_year tYears = [((2020 : Int), 2), ((2021 : Int), 1)] ∧
    (∀ t, List.Sorted keyLE (papers_by_year t)) ∧
    (∀ t wc, wc ∈ papers_by_year t →
      wc.2 = (t.rows.filterMap Row.publication_year).count wc.1 ∧ 0 < wc.2) ∧
    (∀ t (y : Int), y ∈ t.rows.filterMap Row.publication_year ↔
      ∃ c, (y, c) ∈ papers_by_year t) ∧
    (∀ t n, List.Sorted countGE (top_journals t n) ∧ (top_journals t n).length ≤ n) ∧
    (∀ t n wc, wc ∈ top_journals t n →
      wc.2 = (t.rows.filterMap Row.journal).count wc.1 ∧ 0 < wc.2) := by
  refine ⟨by decide, ?_, ?_, ?_, ?_, ?_⟩
  · intro t
    exact List.sorted_insertionSort keyLE _
  · intro t wc hm
    have hm2 : wc ∈ value_counts (t.rows.filterMap Row.publication_year) :=
      (List.perm_insertionSort keyLE _).mem_iff.mp hm
    exact mem_value_counts hm2
  · intro t y
    rw [← keys_value_counts]
    constructor
    · rintro ⟨c, hc⟩
      exact ⟨c, (List.perm_insertionSort keyLE _).mem_iff.mpr hc⟩
    · rintro ⟨c, hc⟩
      exact ⟨c, (List.perm_insertionSort keyLE _).mem_iff.mp hc⟩
  · intro t n
    constructor
    · exact List.Pairwise.sublist (List.take_sublist n _)
        (value_counts_sorted (t.rows.filterMap Row.journal))
    · exact List.length_take_le n _
  · intro t n wc hm
    exact mem_value_counts (List.mem_of_mem_take hm)

/-- Witness for C4: the entry `(2020, 2)` of the concrete result carries
the exact multiplicity of year 2020 in `tYears`. -/
theorem claim_C4_count_by_witness :
    ((2020 : Int), 2).2 = (tYears.rows.filterMap Row.publication_year).count ((2020 : Int), 2).1 := by
  exact (claim_C4_count_by.2.2.1 tYears ((2020 : Int), 2) (by decide)).1

/-- C7: A year range matching no rows yields an empty filtered view (no
error: filtering is total), and every aggregator on that empty view returns
an empty result — no papers-by-year entries, no top journals, no top words,
and a missing mean for the descriptive statistic. -/
theorem claim_C7_empty_view (t : Table) (lo hi : Int) (n : Nat)
    (h : ∀ r ∈ t.rows, inYearRange lo hi r = false) :
    (filterYearRange t lo hi).rows = [] ∧
    papers_by_year (filterYearRange t lo hi) = [] ∧
    top_journals (filterYearRange t lo hi) n = [] ∧
    top_words (filterYearRange t lo hi) n = [] ∧
    avg_abstract_words (filterYearRange t lo hi) = none := by
  have hrows : (filterYearRange t lo hi).rows = [] := by
    simp only [filterYearRange]
    exact List.filter_eq_nil_iff.mpr (fun r hr => by simp [h r hr])
  have htoks : titleTokens (filterYearRange t lo hi) = [] := by
    simp only [titleTokens]
    rw [hrows]
    decide
  refine ⟨hrows, ?_, ?_, ?_, ?_⟩
  · simp only [papers_by_year]
    rw [hrows]
    rfl
  · simp only [top_journals]
    rw [hrows]
    exact List.take_nil
  · simp only [top_words, most_common]
    rw [htoks]
    exact List.take_nil
  · simp only [avg_abstract_words]
    rw [hrows]
    rfl

/-- Witness for C7: filtering `tYears` (years 2020, 2020, 2021) to the
range [2025, 2030] leaves nothing, and every aggregator returns an empty
result. -/
theorem claim_C7_empty_view_witness :
    (filterYearRange tYears 2025 2030).rows = [] ∧
    papers_by_year (filterYearRange tYears 2025 2030) = [] ∧
    top_journals (filterYearRange tYears 2025 2030) 15 = [] ∧
    top_words (filterYearRange tYears 2025 2030) 20 = [] ∧
    avg_abstract_words (filterYearRange tYears 2025 2030) = none := by
  exact claim_C7_empty_view tYears 2025 2030 15 (by decide) |>.imp id
    (fun h => ⟨h.1, h.2.1, (claim_C7_empty_view tYears 2025 2030 20 (by decide)).2.2.2⟩)

/-- C8 counterexample: the claim "reloading the downloaded CSV reproduces
the same column set as the in-memory Filtered View" fails on a concrete
view: the filtered view built from `tFull` has a `title_word_count` column
(and a `publish_time` column), but the reloaded CSV does not, because the
download only contains the display columns. -/
theorem claim_C8_counterexample :
    ("title_word_count" ∈ (filterYearRange (prepare_data parseDemo tFull) 2015 2030).columns) ∧
    ((read_csv (to_csv (filterYearRange (prepare_data parseDemo tFull) 2015 2030))).map
      (fun u => u.columns.contains "title_word_count")) = some false := by
  decide

/-- Reading records under a header that is a sublist of the six display
column names yields a table whose column list is exactly that header. -/
theorem columns_tableOfRecords :
    ∀ H : List String,
      H.Sublist ["title", "abstract", "authors", "journal", "publication_year",
        "abstract_word_count"] →
      ∀ body, (tableOfRecords H body).columns = H := by
  intro H hsub body
  rcases List.sublist_cons_iff.mp hsub with h1 | ⟨H1, rfl, h1⟩ <;>
    rcases List.sublist_cons_iff.mp h1 with h2 | ⟨H2, rfl, h2⟩ <;>
      rcases List.sublist_cons_iff.mp h2 with h3 | ⟨H3, rfl, h3⟩ <;>
        rcases List.sublist_cons_iff.mp h3 with h4 | ⟨H4, rfl, h4⟩ <;>
          rcases List.sublist_cons_iff.mp h4 with h5 | ⟨H5, rfl, h5⟩ <;>
            rcases List.sublist_cons_iff.mp h5 with h6 | ⟨H6, rfl, h6⟩ <;>
              (rw [List.sublist_nil.mp h6]; rfl)

/-- C8 (amended): reloading the written CSV of any filtered view succeeds
and reproduces the view's row count, and its column set is exactly the
display columns — the subset of title, abstract, authors, journal,
publication_year, abstract_word_count present in the view — rather than the
view's full column set. -/
theorem claim_C8_roundtrip (v : Table) :
    ∃ u, read_csv (to_csv v) = some u ∧ u.rows.length = v.rows.length ∧
      u.columns = display_cols v := by
  refine ⟨tableOfRecords (display_cols v) (v.rows.map (fun r => (display_cols v).map (cellOf r))),
    rfl, ?_, ?_⟩
  · simp only [tableOfRecords]
    rw [List.length_map, List.length_map]
  · exact columns_tableOfRecords (display_cols v) (List.filter_sublist _) _

end Cord19
